import Mathlib

set_option maxRecDepth 100000

/-!
Verification of the java-test generation skill (`validators.py` and the
validation-handling part of `mplementation.py`).

The Python code is embedded shallowly: strings are modelled as `List Char`
(wrapped into `String` at the API boundary), the few regular expressions the
code uses are modelled by executable search functions that reproduce the
leftmost-match / lazy-group semantics of Python's `re.search` for exactly the
patterns appearing in the source, and dictionary reports are modelled by a
structure.  `re`'s `\s` coincides with `str.isspace` on all characters the
checks can meet; `\w` is modelled on its ASCII core (the Java markers the
patterns look for are ASCII).
-/

/-- Python's whitespace set: the characters matched by `\s` / `str.isspace`. -/
def pyIsSpace (c : Char) : Bool :=
  c = ' ' || c = '\t' || c = '\n' || c = '\x0b' || c = '\x0c' || c = '\r' ||
  c = '\x1c' || c = '\x1d' || c = '\x1e' || c = '\x1f' ||
  c = '\u0085' || c = '\u00a0' || c = '\u1680' ||
  c = '\u2000' || c = '\u2001' || c = '\u2002' || c = '\u2003' ||
  c = '\u2004' || c = '\u2005' || c = '\u2006' || c = '\u2007' ||
  c = '\u2008' || c = '\u2009' || c = '\u200a' ||
  c = '\u2028' || c = '\u2029' || c = '\u202f' || c = '\u205f' || c = '\u3000'

/-- Word characters for `\b` / `\w` (ASCII core: letters, digits, underscore). -/
def pyIsWord (c : Char) : Bool :=
  c.isAlphanum || c = '_'

/-- Python `str.strip()`: drop whitespace from both ends. -/
def pyStrip (cs : List Char) : List Char :=
  ((cs.dropWhile pyIsSpace).reverse.dropWhile pyIsSpace).reverse

/-- Match a literal at the head of `cs`; on success return what follows it. -/
def dropLit : List Char → List Char → Option (List Char)
  | [], cs => some cs
  | _ :: _, [] => none
  | l :: ls, c :: cs => if c = l then dropLit ls cs else none

/-- Does `cs` start with the literal `lit`?  (Python `str.startswith`.) -/
def isLitAt (lit cs : List Char) : Bool :=
  (dropLit lit cs).isSome

/-- Does `lit` occur anywhere in `cs`?  (Python `lit in cs`.) -/
def containsLit (lit : List Char) : List Char → Bool
  | [] => isLitAt lit []
  | c :: rest => isLitAt lit (c :: rest) || containsLit lit rest

/-- The three-backtick fence delimiter (char code 96). -/
def tripleLit : List Char := [Char.ofNat 96, Char.ofNat 96, Char.ofNat 96]

/-- Is there a `\b` boundary between the previous character and a following
word character?  (`none` = start of string.) -/
def bndOK : Option Char → Bool
  | none => true
  | some c => !pyIsWord c

/-- Is there a `\b` boundary between a preceding word character and what
follows?  (`[]` = end of string.) -/
def afterBndOK : List Char → Bool
  | [] => true
  | c :: _ => !pyIsWord c

/-- Model of `re.search` for a pattern `\bLIT...`: try every position, tracking the
previous character for the word boundary.  `matchAt` holds at a position iff
the pattern body matches there; the bodies used below all start with a word
character, so `\b` there is exactly `bndOK` of the previous character. -/
def searchBndGo (matchAt : List Char → Bool) : Option Char → List Char → Bool
  | prev, [] => bndOK prev && matchAt []
  | prev, c :: rest => (bndOK prev && matchAt (c :: rest)) || searchBndGo matchAt (some c) rest

/-- Body of the pattern `(Runtime|ProcessBuilder)\.getRuntime\(\)`. -/
def matchGetRuntimeAt (cs : List Char) : Bool :=
  isLitAt "Runtime.getRuntime()".toList cs || isLitAt "ProcessBuilder.getRuntime()".toList cs

/-- Whether `re.search(r"@Test\b", code)` succeeds (equivalently, `re.findall` of that
pattern is non-empty): some occurrence of `@Test` is followed by a non-word
character or the end of the string. -/
def searchTestAnnot : List Char → Bool
  | [] => false
  | c :: rest =>
    (c = '@' && isLitAt "Test".toList rest && afterBndOK (rest.drop 4)) || searchTestAnnot rest

/-- Greedy `\s+`: at least one whitespace character, matched greedily. -/
def dropWs1 : List Char → Option (List Char)
  | [] => none
  | c :: rest => if pyIsSpace c then some (rest.dropWhile pyIsSpace) else none

/-- Match `public\s+class\s+(\w+)` at the head of `cs`; return the group. -/
def matchPubClassAt (cs : List Char) : Option (List Char) :=
  match dropLit "public".toList cs with
  | none => none
  | some r1 =>
    match dropWs1 r1 with
    | none => none
    | some r2 =>
      match dropLit "class".toList r2 with
      | none => none
      | some r3 =>
        match dropWs1 r3 with
        | none => none
        | some r4 =>
          let name := r4.takeWhile pyIsWord
          if name = [] then none else some name

/-- Model of `re.search(r"public\s+class\s+(\w+)", code)`: first position that matches,
returning the captured class name. -/
def searchPubClass : List Char → Option (List Char)
  | [] => none
  | c :: rest =>
    match matchPubClassAt (c :: rest) with
    | some g => some g
    | none => searchPubClass rest

/-- Do the next three characters form a backtick fence? -/
def isTriple (cs : List Char) : Bool :=
  isLitAt tripleLit cs

/-- The optional `(?:java)?` tag after the opening fence, case-insensitive. -/
def dropJavaTag (cs : List Char) : List Char :=
  match cs with
  | a :: b :: c :: d :: rest =>
    if a.toLower = 'j' ∧ b.toLower = 'a' ∧ c.toLower = 'v' ∧ d.toLower = 'a' then rest
    else a :: b :: c :: d :: rest
  | _ => cs

/-- The lazy group of the fenced-block pattern: scan forward for the first
position closing the fence (a triple backtick, or a newline followed by a
triple backtick — the newline, preferred by the optional-newline part of the
pattern, stays outside the group) and return the group. -/
def lazyGroup : List Char → Option (List Char)
  | [] => none
  | c :: rest =>
    if isTriple (c :: rest) then some []
    else if c = '\n' ∧ isTriple rest then some []
    else (lazyGroup rest).map (fun g => c :: g)

/-- Attempt the fenced-block pattern at one position: an opening fence, the
optional case-insensitive tag, greedy `\s*` (after which `\n?` is necessarily
empty), then the lazy group up to the closing fence. -/
def matchFenceAt (cs : List Char) : Option (List Char) :=
  match dropLit tripleLit cs with
  | none => none
  | some rest => lazyGroup ((dropJavaTag rest).dropWhile pyIsSpace)

/-- `re.search` of the fenced-block pattern: leftmost position that matches. -/
def searchFence : List Char → Option (List Char)
  | [] => none
  | c :: rest =>
    match matchFenceAt (c :: rest) with
    | some g => some g
    | none => searchFence rest

/-- The validation report dictionary built by `JavaTestValidator.validate`
(keys `valid`, `clean_code`, `errors`, `warnings`, `suggestions`). -/
structure ValidationReport where
  valid : Bool
  clean_code : String
  errors : List String
  warnings : List String
  suggestions : List String
deriving Repr, DecidableEq

/-- The issue dictionary built by `JavaTestValidator._check_structure`. -/
structure StructIssues where
  errors : List String
  warnings : List String
  suggestions : List String
deriving Repr, DecidableEq

/-- Python `str.endswith`: `lit` is a suffix of `cs`. -/
def endsWithLit (lit cs : List Char) : Bool :=
  isLitAt lit.reverse cs.reverse

/-- Python truthiness of the optional `target_class_name` argument
(`None` and the empty string are falsy). -/
def optTruthy : Option String → Bool
  | none => false
  | some s => !s.data.isEmpty

namespace JavaTestValidator

/-- The source's `self.dangerous_patterns`: the fixed (pattern, reason) list, each pattern
given by its `re.search` model. -/
def dangerous_patterns : List ((List Char → Bool) × String) :=
  [ (fun code => searchBndGo matchGetRuntimeAt none code, "禁止使用 Runtime 执行系统命令"),
    (fun code => searchBndGo (fun cs => isLitAt "exec(".toList cs) none code, "禁止调用 exec()"),
    (fun code => containsLit "new ProcessBuilder".toList code, "禁止创建进程"),
    (fun code => containsLit "System.exit".toList code, "禁止调用 System.exit()") ]

/-- The source's `self.junit5_required_imports` (declared by the source, unused by it). -/
def junit5_required_imports : List String :=
  ["org.junit.jupiter.api.Test", "org.junit.jupiter.api.BeforeEach",
   "org.junit.jupiter.api.AfterEach"]

/-- Model of `_extract_java_code`: first fenced block if any, else the whole stripped
text when its first line starts with `public class` or `import`, else empty. -/
def _extract_java_code (text : List Char) : List Char :=
  match searchFence text with
  | some g => pyStrip g
  | none =>
    let stripped := pyStrip text
    let line0 := stripped.takeWhile (fun c => c != '\n')
    if isLitAt "public class".toList line0 || isLitAt "import".toList line0 then stripped
    else []

/-- Model of `_check_safety`: collect the reasons of all matching danger patterns, in
pattern-list order; safe iff none matched. -/
def _check_safety (code : List Char) : Bool × List String :=
  let issues := (dangerous_patterns.filter (fun pm => pm.1 code)).map (fun pm => pm.2)
  (issues.length == 0, issues)

/-- Model of `_check_structure`: the three JUnit-structure issue lists, accumulated in
source order. -/
def _check_structure (code : List Char) (target_class_name : Option String) : StructIssues :=
  let e1 : List String :=
    if containsLit "import org.junit.jupiter.api.Test;".toList code ||
       containsLit "import static org.junit.jupiter.api.Assertions.*;".toList code then []
    else ["缺少 JUnit 5 相关导入（应包含 @Test）"]
  let e2 : List String :=
    if (searchPubClass code).isNone then ["未找到 public class 定义"] else []
  let w1 : List String :=
    match searchPubClass code with
    | none => []
    | some name =>
      if endsWithLit "Test".toList name then []
      else ["测试类名 '" ++ String.mk name ++ "' 应以 'Test' 结尾"]
  let s1 : List String :=
    match searchPubClass code, target_class_name with
    | some name, some t =>
      if optTruthy (some t) && !(isLitAt t.data name) then
        ["建议测试类命名为 '" ++ t ++ "Test' 以匹配被测类"]
      else []
    | _, _ => []
  let e3 : List String :=
    if searchTestAnnot code then [] else ["未找到任何 @Test 注解的方法"]
  let w2 : List String :=
    if containsLit "public static void main".toList code then ["测试类中不应包含 main 方法"]
    else []
  let w3 : List String :=
    if (containsLit "mock(".toList code || containsLit "when(".toList code ||
        containsLit "verify(".toList code) &&
       !containsLit "import org.mockito".toList code then
      ["检测到 Mockito 用法但缺少相关导入"]
    else []
  { errors := e1 ++ e2 ++ e3, warnings := w1 ++ w2 ++ w3, suggestions := s1 }

/-- Model of `validate`: extract, then safety-screen (short-circuiting), then
structure-check; `valid` is the emptiness of the error list. -/
def validate (raw_output : String) (target_class_name : Option String) : ValidationReport :=
  if _extract_java_code raw_output.toList = [] then
    { valid := false, clean_code := "",
      errors := ["未找到有效的 ```java 代码块"], warnings := [], suggestions := [] }
  else if (_check_safety (_extract_java_code raw_output.toList)).1 = false then
    { valid := false, clean_code := String.mk (_extract_java_code raw_output.toList),
      errors := (_check_safety (_extract_java_code raw_output.toList)).2,
      warnings := [], suggestions := [] }
  else
    { valid := (_check_structure (_extract_java_code raw_output.toList) target_class_name).errors.length == 0,
      clean_code := String.mk (_extract_java_code raw_output.toList),
      errors := (_check_structure (_extract_java_code raw_output.toList) target_class_name).errors,
      warnings := (_check_structure (_extract_java_code raw_output.toList) target_class_name).warnings,
      suggestions := (_check_structure (_extract_java_code raw_output.toList) target_class_name).suggestions }

end JavaTestValidator

/-- Module-level `validate_java_test`: run the validator, then in strict mode
fold any warnings into the errors and force `valid` false. -/
def validate_java_test (raw_output : String) (target_class_name : Option String)
    (strict : Bool) : ValidationReport :=
  if strict = true ∧ (JavaTestValidator.validate raw_output target_class_name).warnings ≠ [] then
    { JavaTestValidator.validate raw_output target_class_name with
      errors := (JavaTestValidator.validate raw_output target_class_name).errors ++
                (JavaTestValidator.validate raw_output target_class_name).warnings,
      valid := false }
  else JavaTestValidator.validate raw_output target_class_name

/-- A Python value stored under a report key. -/
inductive PyVal where
  | pyBool (b : Bool)
  | pyStr (s : String)
  | pyList (xs : List String)
deriving Repr, DecidableEq

/-- Python exceptions the generator's validation step can raise. -/
inductive PyError where
  | valueError (msg : String)
  | keyError (key : String)
  | typeError
deriving Repr, DecidableEq

/-- Subscripting the validation-report dictionary: its keys are exactly
`valid`, `clean_code`, `errors`, `warnings`, `suggestions`. -/
def reportGetItem (r : ValidationReport) (k : String) : Option PyVal :=
  if k = "valid" then some (PyVal.pyBool r.valid)
  else if k = "clean_code" then some (PyVal.pyStr r.clean_code)
  else if k = "errors" then some (PyVal.pyList r.errors)
  else if k = "warnings" then some (PyVal.pyList r.warnings)
  else if k = "suggestions" then some (PyVal.pyList r.suggestions)
  else none

/-- Python `", ".join(v)`: defined on lists of strings; joining anything else is a
`TypeError`. -/
def pyJoin (sep : String) : PyVal → Option String
  | PyVal.pyList xs => some (String.intercalate sep xs)
  | _ => none

/-- The validation-handling step of `generate_java_test` (steps 4–7 of
`mplementation.py`, after the raw LLM reply is in hand): validate the reply
with the default arguments (no target name, strict mode); when the report is
invalid, the source raises
`ValueError(f"测试生成失败: {', '.join(validation['issues'])}")`, whose message
is built by first subscripting the report with `'issues'`; on success it
returns the clean code. -/
def generate_java_test_validation (raw_output : String) : Except PyError String :=
  if (validate_java_test raw_output none true).valid = false then
    match reportGetItem (validate_java_test raw_output none true) "issues" with
    | none => Except.error (PyError.keyError "issues")
    | some v =>
      match pyJoin ", " v with
      | none => Except.error PyError.typeError
      | some msg => Except.error (PyError.valueError ("测试生成失败: " ++ msg))
  else Except.ok (validate_java_test raw_output none true).clean_code

/-- The safety flag is by definition the emptiness test of the issue list. -/
theorem check_safety_fst (code : List Char) :
    (JavaTestValidator._check_safety code).1 =
      ((JavaTestValidator._check_safety code).2.length == 0) := rfl

/-- Auxiliary: at the end of `JavaTestValidator.validate`, the `valid` flag
holds exactly when the error list is empty. -/
theorem validate_valid_iff_aux (s : String) (t : Option String) :
    (JavaTestValidator.validate s t).valid = true ↔
      (JavaTestValidator.validate s t).errors = [] := by
  unfold JavaTestValidator.validate
  split
  · simp
  · split
    · next h =>
      have hne : (JavaTestValidator._check_safety (JavaTestValidator._extract_java_code s.toList)).2 ≠ [] := by
        intro hnil
        rw [check_safety_fst, hnil] at h
        simp at h
      simp only [String.toList] at hne
      simp [hne]
    · simp [List.length_eq_zero]

/-- C1: on an invalid validation report, `generate_java_test` does not raise
the typed generation-validation error: the message of its `raise ValueError`
subscripts the report with the key `'issues'`, which the report does not
have, so a `KeyError` escapes instead.  Evaluated at a reply with no code
block (whose report is invalid). -/
theorem spec_C1_generator_keyerror_on_invalid :
    generate_java_test_validation "Sorry, I cannot help with that" =
      Except.error (PyError.keyError "issues") ∧
    (validate_java_test "Sorry, I cannot help with that" none true).valid = false := by
  exact ⟨rfl, by decide⟩

/-- C2: for the scenario-1 input, the extracted code is the class body and no
danger pattern matches, but — contrary to the claim — the report is invalid:
the class body has no JUnit import, so the import check records an error. -/
theorem spec_C2_counterexample :
    ¬ ((JavaTestValidator.validate
          "Here is the test:\n```java\npublic class FooTest \x7b\n  @Test\n  void t() \x7b\x7d\n\x7d\n```"
          none).valid = true ∧
       (JavaTestValidator.validate
          "Here is the test:\n```java\npublic class FooTest \x7b\n  @Test\n  void t() \x7b\x7d\n\x7d\n```"
          none).errors = []) := by
  decide

/-- C2 (amended): for the scenario-1 input the extractor yields the class
body, the safety screen passes, and the report is invalid with exactly the
missing-JUnit-import error and no warnings or suggestions. -/
theorem spec_C2_amended :
    JavaTestValidator.validate
        "Here is the test:\n```java\npublic class FooTest \x7b\n  @Test\n  void t() \x7b\x7d\n\x7d\n```"
        none =
      { valid := false,
        clean_code := "public class FooTest \x7b\n  @Test\n  void t() \x7b\x7d\n\x7d",
        errors := ["缺少 JUnit 5 相关导入（应包含 @Test）"],
        warnings := [], suggestions := [] } ∧
    (JavaTestValidator._check_safety
        (JavaTestValidator._extract_java_code
          "Here is the test:\n```java\npublic class FooTest \x7b\n  @Test\n  void t() \x7b\x7d\n\x7d\n```".toList)).1
      = true := by
  constructor <;> decide

/-- C3: for a fenced block containing `Runtime.getRuntime().exec("rm -rf /")`
the safety check does not fail with exactly one triggered reason: the
`exec(` pattern fires as well (the dot before `exec` is a word boundary), so
the error list is not the single Runtime-acquisition reason. -/
theorem spec_C3_counterexample :
    ¬ ((JavaTestValidator.validate
          "```java\nRuntime.getRuntime().exec(\"rm -rf /\")\n```" none).errors =
        ["禁止使用 Runtime 执行系统命令"]) := by
  decide

/-- C3 (amended): for the fenced block containing exactly
`Runtime.getRuntime().exec("rm -rf /")`, the safety check fails with exactly
two reasons, the Runtime-acquisition reason followed by the exec-call reason
(pattern-list order); structure checks never run (warnings and suggestions
stay empty) and the report is invalid with exactly those two errors. -/
theorem spec_C3_amended :
    JavaTestValidator.validate "```java\nRuntime.getRuntime().exec(\"rm -rf /\")\n```" none =
      { valid := false,
        clean_code := "Runtime.getRuntime().exec(\"rm -rf /\")",
        errors := ["禁止使用 Runtime 执行系统命令", "禁止调用 exec()"],
        warnings := [], suggestions := [] } ∧
    (JavaTestValidator._check_safety
        (JavaTestValidator._extract_java_code
          "```java\nRuntime.getRuntime().exec(\"rm -rf /\")\n```".toList)).2 =
      ["禁止使用 Runtime 执行系统命令", "禁止调用 exec()"] := by
  constructor <;> decide

/-- C5: for every input and optional target class name, the report of the
base pipeline has `valid = true` exactly when its error list is empty. -/
theorem spec_C5_valid_iff_errors_empty (s : String) (t : Option String) :
    (JavaTestValidator.validate s t).valid = true ↔
      (JavaTestValidator.validate s t).errors = [] :=
  validate_valid_iff_aux s t

/-- Helper: `String.mk` produces the empty string only from the empty char list. -/
theorem string_mk_eq_empty_iff (a : List Char) : String.mk a = "" ↔ a = [] :=
  ⟨fun h => congrArg String.data h, fun h => by rw [h]⟩

/-- C4: whenever the extracted code matches at least one danger pattern
(`is_safe` is false), the orchestrator returns immediately: the report is
invalid, its errors are exactly the triggered reasons — the map, in fixed
pattern-list order, over the matching entries of `dangerous_patterns` — and
warnings and suggestions stay empty (no structure check contributes). -/
theorem spec_C4_safety_short_circuit (s : String) (t : Option String)
    (h : (JavaTestValidator._check_safety (JavaTestValidator._extract_java_code s.toList)).1 = false) :
    JavaTestValidator.validate s t =
      { valid := false,
        clean_code := String.mk (JavaTestValidator._extract_java_code s.toList),
        errors := (JavaTestValidator._check_safety (JavaTestValidator._extract_java_code s.toList)).2,
        warnings := [], suggestions := [] } ∧
    (JavaTestValidator._check_safety (JavaTestValidator._extract_java_code s.toList)).2 =
      (JavaTestValidator.dangerous_patterns.filter
        (fun pm => pm.1 (JavaTestValidator._extract_java_code s.toList))).map (fun pm => pm.2) := by
  have hne : JavaTestValidator._extract_java_code s.toList ≠ [] := by
    intro hc
    rw [hc] at h
    exact absurd h (by decide)
  refine ⟨?_, rfl⟩
  unfold JavaTestValidator.validate
  rw [if_neg hne, if_pos h]

/-- Witness for C4 at a concrete unsafe reply (a `System.exit` call). -/
theorem spec_C4_witness :
    (JavaTestValidator._check_safety
        (JavaTestValidator._extract_java_code "```\nSystem.exit(0);\n```".toList)).1 = false ∧
    JavaTestValidator.validate "```\nSystem.exit(0);\n```" none =
      { valid := false,
        clean_code := String.mk (JavaTestValidator._extract_java_code "```\nSystem.exit(0);\n```".toList),
        errors := (JavaTestValidator._check_safety
          (JavaTestValidator._extract_java_code "```\nSystem.exit(0);\n```".toList)).2,
        warnings := [], suggestions := [] } :=
  ⟨by decide, (spec_C4_safety_short_circuit "```\nSystem.exit(0);\n```" none (by decide)).1⟩

/-- C6: with strict mode on, a report whose base run produced any warning is
never valid; with strict mode off, the final report is the base report
unchanged, so `valid` is determined solely by the emptiness of the errors. -/
theorem spec_C6_strict_mode (s : String) (t : Option String) :
    ((JavaTestValidator.validate s t).warnings ≠ [] →
        (validate_java_test s t true).valid = false) ∧
    validate_java_test s t false = JavaTestValidator.validate s t ∧
    ((validate_java_test s t false).valid = true ↔
        (validate_java_test s t false).errors = []) := by
  have h2 : validate_java_test s t false = JavaTestValidator.validate s t := by
    unfold validate_java_test
    rw [if_neg (fun hx => Bool.noConfusion hx.1)]
  refine ⟨?_, h2, ?_⟩
  · intro hw
    unfold validate_java_test
    rw [if_pos ⟨rfl, hw⟩]
  · rw [h2]
    exact validate_valid_iff_aux s t

/-- Witness for C6 at a concrete reply whose base run yields a warning (a
stray `public static void main`). -/
theorem spec_C6_witness :
    (JavaTestValidator.validate
        "```java\nimport org.junit.jupiter.api.Test;\npublic class DemoTest \x7b\n@Test void t() \x7b \x7d\npublic static void main\n\x7d\n```"
        none).warnings ≠ [] ∧
    (validate_java_test
        "```java\nimport org.junit.jupiter.api.Test;\npublic class DemoTest \x7b\n@Test void t() \x7b \x7d\npublic static void main\n\x7d\n```"
        none true).valid = false :=
  ⟨by decide,
   (spec_C6_strict_mode
      "```java\nimport org.junit.jupiter.api.Test;\npublic class DemoTest \x7b\n@Test void t() \x7b \x7d\npublic static void main\n\x7d\n```"
      none).1 (by decide)⟩

/-- C7: the orchestrator is a pure function of (raw text, target name,
strict flag): two runs on identical inputs agree on every field of the
report. -/
theorem spec_C7_deterministic (s : String) (t : Option String) (strict : Bool) :
    validate_java_test s t strict = validate_java_test s t strict ∧
    (validate_java_test s t strict).valid = (validate_java_test s t strict).valid ∧
    (validate_java_test s t strict).clean_code = (validate_java_test s t strict).clean_code ∧
    (validate_java_test s t strict).errors = (validate_java_test s t strict).errors ∧
    (validate_java_test s t strict).warnings = (validate_java_test s t strict).warnings ∧
    (validate_java_test s t strict).suggestions = (validate_java_test s t strict).suggestions :=
  ⟨rfl, rfl, rfl, rfl, rfl, rfl⟩

/-- C9: when code was extracted but failed the safety screen, the invalid
report still carries the full extracted code in `clean_code`; and
`clean_code` is empty exactly when extraction produced no code. -/
theorem spec_C9_clean_code_preserved (s : String) (t : Option String) :
    (JavaTestValidator._extract_java_code s.toList ≠ [] →
      (JavaTestValidator._check_safety (JavaTestValidator._extract_java_code s.toList)).1 = false →
      (JavaTestValidator.validate s t).clean_code =
        String.mk (JavaTestValidator._extract_java_code s.toList)) ∧
    ((JavaTestValidator.validate s t).clean_code = "" ↔
      JavaTestValidator._extract_java_code s.toList = []) := by
  constructor
  · intro hne h
    unfold JavaTestValidator.validate
    rw [if_neg hne, if_pos h]
  · unfold JavaTestValidator.validate
    split
    · next hc => exact iff_of_true rfl hc
    · next hne =>
      split
      · exact string_mk_eq_empty_iff _
      · exact string_mk_eq_empty_iff _

/-- Witness for C9 at a concrete dangerous reply (a `ProcessBuilder`
construction). -/
theorem spec_C9_witness :
    JavaTestValidator._extract_java_code "```\nnew ProcessBuilder(\"x\")\n```".toList ≠ [] ∧
    (JavaTestValidator._check_safety
        (JavaTestValidator._extract_java_code "```\nnew ProcessBuilder(\"x\")\n```".toList)).1 = false ∧
    (JavaTestValidator.validate "```\nnew ProcessBuilder(\"x\")\n```" none).clean_code =
      String.mk (JavaTestValidator._extract_java_code "```\nnew ProcessBuilder(\"x\")\n```".toList) :=
  ⟨by decide, by decide,
   (spec_C9_clean_code_preserved "```\nnew ProcessBuilder(\"x\")\n```" none).1 (by decide) (by decide)⟩

/-- C10: in strict mode, when the base run produced warnings, the warnings
are appended to the errors but not removed from the warnings, so every
warning string appears in both lists of the final report. -/
theorem spec_C10_strict_duplicates_warnings (s : String) (t : Option String)
    (h : (JavaTestValidator.validate s t).warnings ≠ []) :
    (validate_java_test s t true).errors =
      (JavaTestValidator.validate s t).errors ++ (JavaTestValidator.validate s t).warnings ∧
    (validate_java_test s t true).warnings = (JavaTestValidator.validate s t).warnings ∧
    ∀ w ∈ (JavaTestValidator.validate s t).warnings,
      w ∈ (validate_java_test s t true).errors ∧ w ∈ (validate_java_test s t true).warnings := by
  have hv : validate_java_test s t true =
      { JavaTestValidator.validate s t with
        errors := (JavaTestValidator.validate s t).errors ++
                  (JavaTestValidator.validate s t).warnings,
        valid := false } := by
    unfold validate_java_test
    rw [if_pos ⟨rfl, h⟩]
  refine ⟨by rw [hv], by rw [hv], ?_⟩
  intro w hw
  constructor
  · rw [hv]
    exact List.mem_append.mpr (Or.inr hw)
  · rw [hv]
    exact hw

/-- Witness for C10 at a concrete reply whose base run yields the naming
warning. -/
theorem spec_C10_witness :
    (JavaTestValidator.validate
        "```java\nimport org.junit.jupiter.api.Test;\npublic class Foo \x7b\n@Test void t() \x7b \x7d\n\x7d\n```"
        none).warnings ≠ [] ∧
    ("测试类名 'Foo' 应以 'Test' 结尾" ∈
        (validate_java_test
          "```java\nimport org.junit.jupiter.api.Test;\npublic class Foo \x7b\n@Test void t() \x7b \x7d\n\x7d\n```"
          none true).errors ∧
     "测试类名 'Foo' 应以 'Test' 结尾" ∈
        (validate_java_test
          "```java\nimport org.junit.jupiter.api.Test;\npublic class Foo \x7b\n@Test void t() \x7b \x7d\n\x7d\n```"
          none true).warnings) :=
  ⟨by decide,
   (spec_C10_strict_duplicates_warnings
      "```java\nimport org.junit.jupiter.api.Test;\npublic class Foo \x7b\n@Test void t() \x7b \x7d\n\x7d\n```"
      none (by decide)).2.2 "测试类名 'Foo' 应以 'Test' 结尾" (by decide)⟩

theorem containsLit_cons (lit : List Char) (c : Char) (rest : List Char) :
    containsLit lit (c :: rest) = (isLitAt lit (c :: rest) || containsLit lit rest) := rfl

theorem containsLit_tail_false {lit : List Char} {x r : List Char}
    (h : containsLit lit (x ++ r) = false) : containsLit lit r = false := by
  induction x with
  | nil => exact h
  | cons a x ih =>
    rw [List.cons_append, containsLit_cons, Bool.or_eq_false_iff] at h
    exact ih h.2

theorem isTriple_cons_ne (c : Char) (l : List Char) (h : c ≠ Char.ofNat 96) :
    isTriple (c :: l) = false := by
  simp [isTriple, isLitAt, tripleLit, dropLit, h]

theorem isTriple_cons3 (x y z : Char) (r : List Char) :
    isTriple (x :: y :: z :: r) = true ↔
      (x = Char.ofNat 96 ∧ y = Char.ofNat 96 ∧ z = Char.ofNat 96) := by
  simp only [isTriple, isLitAt, tripleLit, dropLit]
  split_ifs <;> simp_all

theorem isTriple_short1 (x : Char) : isTriple [x] = false := by
  simp [isTriple, isLitAt, tripleLit, dropLit]

theorem isTriple_short2 (x y : Char) : isTriple [x, y] = false := by
  simp [isTriple, isLitAt, tripleLit, dropLit]

theorem lazyGroup_closed :
    ∀ B₁ C : List Char, containsLit tripleLit B₁ = false →
      lazyGroup (B₁ ++ '\n' :: (tripleLit ++ C)) = some B₁ := by
  intro B₁
  induction B₁ with
  | nil =>
    intro C h
    rw [List.nil_append]
    have h1 : isTriple ('\n' :: (tripleLit ++ C)) = false := isTriple_cons_ne _ _ (by decide)
    have h2 : isTriple (tripleLit ++ C) = true := by
      have he : tripleLit ++ C = Char.ofNat 96 :: Char.ofNat 96 :: Char.ofNat 96 :: C := rfl
      rw [he, isTriple_cons3]
      exact ⟨rfl, rfl, rfl⟩
    simp [lazyGroup, h1, h2]
  | cons b bs ih =>
    intro C h
    rw [containsLit_cons, Bool.or_eq_false_iff] at h
    obtain ⟨hb1, hb2⟩ := h
    have hb1' : isTriple (b :: bs) = false := hb1
    have cond1 : isTriple (b :: (bs ++ '\n' :: (tripleLit ++ C))) = false := by
      match bs with
      | [] =>
        rw [List.nil_append]
        rw [Bool.eq_false_iff]
        intro ht
        rcases (isTriple_cons3 _ _ _ _).mp ht with ⟨_, hcn, _⟩
        exact absurd hcn (by decide)
      | [x] =>
        rw [Bool.eq_false_iff]
        intro ht
        rcases (isTriple_cons3 _ _ _ _).mp ht with ⟨_, _, hcn⟩
        exact absurd hcn (by decide)
      | x :: y :: bs' =>
        rw [Bool.eq_false_iff]
        intro ht
        rcases (isTriple_cons3 _ _ _ _).mp ht with ⟨e1, e2, e3⟩
        rw [Bool.eq_false_iff] at hb1'
        exact hb1' ((isTriple_cons3 _ _ _ _).mpr ⟨e1, e2, e3⟩)
    have cond2 : ¬ (b = '\n' ∧ isTriple (bs ++ '\n' :: (tripleLit ++ C)) = true) := by
      rintro ⟨-, ht⟩
      match bs, ht with
      | [], ht =>
        rw [List.nil_append, isTriple_cons_ne _ _ (by decide : ('\n' : Char) ≠ Char.ofNat 96)] at ht
        exact Bool.noConfusion ht
      | [x], ht =>
        rw [List.cons_append, List.nil_append] at ht
        rcases (isTriple_cons3 _ _ _ _).mp ht with ⟨_, hcn, _⟩
        exact absurd hcn (by decide)
      | [x, y], ht =>
        rw [List.cons_append, List.cons_append, List.nil_append] at ht
        rcases (isTriple_cons3 _ _ _ _).mp ht with ⟨_, _, hcn⟩
        exact absurd hcn (by decide)
      | x :: y :: z :: bs', ht =>
        rcases (isTriple_cons3 _ _ _ _).mp ht with ⟨e1, e2, e3⟩
        have hx : isLitAt tripleLit (x :: y :: z :: bs') = false := by
          rw [containsLit_cons, Bool.or_eq_false_iff] at hb2
          exact hb2.1
        have hx' : isTriple (x :: y :: z :: bs') = false := hx
        rw [Bool.eq_false_iff] at hx'
        exact hx' ((isTriple_cons3 _ _ _ _).mpr ⟨e1, e2, e3⟩)
    rw [List.cons_append]
    rw [lazyGroup]
    rw [if_neg (by rw [cond1]; exact Bool.noConfusion), if_neg cond2, ih C hb2]
    rfl

theorem matchFenceAt_cons_ne (c : Char) (l : List Char) (h : c ≠ Char.ofNat 96) :
    matchFenceAt (c :: l) = none := by
  simp [matchFenceAt, tripleLit, dropLit, h]

theorem searchFence_append_no_bt :
    ∀ A r : List Char, (∀ c ∈ A, c ≠ Char.ofNat 96) →
      searchFence (A ++ r) = searchFence r := by
  intro A
  induction A with
  | nil => intro r _; rfl
  | cons a A ih =>
    intro r hA
    rw [List.cons_append, searchFence, matchFenceAt_cons_ne a _ (hA a (by simp))]
    exact ih r (fun c hc => hA c (by simp [hc]))

theorem matchFenceAt_none_of_not_lit {cs : List Char}
    (h : isLitAt tripleLit cs = false) : matchFenceAt cs = none := by
  unfold matchFenceAt
  cases hd : dropLit tripleLit cs with
  | none => rfl
  | some r =>
    rw [isLitAt, hd] at h
    exact Bool.noConfusion h

theorem searchFence_none :
    ∀ s : List Char, containsLit tripleLit s = false → searchFence s = none := by
  intro s
  induction s with
  | nil => intro _; rfl
  | cons c rest ih =>
    intro h
    rw [containsLit_cons, Bool.or_eq_false_iff] at h
    rw [searchFence, matchFenceAt_none_of_not_lit h.1]
    exact ih h.2

theorem searchFence_fence (X : List Char) {g : List Char}
    (h : lazyGroup ((dropJavaTag X).dropWhile pyIsSpace) = some g) :
    searchFence (tripleLit ++ X) = some g := by
  have he : tripleLit ++ X = Char.ofNat 96 :: (Char.ofNat 96 :: Char.ofNat 96 :: X) := rfl
  have hm : matchFenceAt (Char.ofNat 96 :: (Char.ofNat 96 :: Char.ofNat 96 :: X)) = some g := by
    unfold matchFenceAt
    have hd : dropLit tripleLit (Char.ofNat 96 :: (Char.ofNat 96 :: Char.ofNat 96 :: X)) = some X := by
      simp [tripleLit, dropLit]
    rw [hd]
    exact h
  rw [he, searchFence, hm]

theorem dropJavaTag_no (a : Char) (l : List Char) (h : a.toLower ≠ 'j') :
    dropJavaTag (a :: l) = a :: l := by
  match l with
  | [] => rfl
  | [b] => rfl
  | [b, c] => rfl
  | b :: c :: d :: rest =>
    rw [dropJavaTag, if_neg (fun hx => h hx.1)]

theorem dropJavaTag_tag (a b c d : Char) (l : List Char)
    (h : a.toLower = 'j' ∧ b.toLower = 'a' ∧ c.toLower = 'v' ∧ d.toLower = 'a') :
    dropJavaTag (a :: b :: c :: d :: l) = l := by
  rw [dropJavaTag, if_pos h]

theorem dropWhile_head_false {p : Char → Bool} :
    ∀ {l : List Char} {b : Char} {bs : List Char},
      l.dropWhile p = b :: bs → p b = false := by
  intro l
  induction l with
  | nil => intro b bs h; exact absurd h (by simp)
  | cons a l ih =>
    intro b bs h
    rw [List.dropWhile_cons] at h
    by_cases hp : p a = true
    · rw [if_pos hp] at h
      exact ih h
    · rw [if_neg hp] at h
      cases h
      exact Bool.not_eq_true _ ▸ Bool.eq_false_iff.mpr hp

/-- C8: (i) for any text consisting of arbitrary backtick-free material, a
fenced block whose fence is tagged `java` (case-insensitively) or untagged and
whose body contains no triple backtick, and arbitrary trailing content, the
extractor returns exactly the trimmed block body; (ii) with no triple backtick
in the text, the whole trimmed text is returned when its first line starts
with `public class` or `import`; (iii) otherwise the extractor returns the
empty result (and, being a total function, raises nothing). -/
theorem spec_C8_extractor_contract :
    (∀ A tag B C : List Char,
        (∀ c ∈ A, c ≠ Char.ofNat 96) →
        (tag = [] ∨ tag.map Char.toLower = "java".toList) →
        containsLit tripleLit B = false →
        JavaTestValidator._extract_java_code
            (A ++ (tripleLit ++ (tag ++ '\n' :: (B ++ '\n' :: (tripleLit ++ C))))) =
          pyStrip B) ∧
    (∀ s : List Char, containsLit tripleLit s = false →
        (isLitAt "public class".toList ((pyStrip s).takeWhile (fun c => c != '\n')) ||
         isLitAt "import".toList ((pyStrip s).takeWhile (fun c => c != '\n'))) = true →
        JavaTestValidator._extract_java_code s = pyStrip s) ∧
    (∀ s : List Char, containsLit tripleLit s = false →
        (isLitAt "public class".toList ((pyStrip s).takeWhile (fun c => c != '\n')) ||
         isLitAt "import".toList ((pyStrip s).takeWhile (fun c => c != '\n'))) = false →
        JavaTestValidator._extract_java_code s = []) := by
  refine ⟨?_, ?_, ?_⟩
  · intro A tag B C hA htag hB
    have hdt : dropJavaTag (tag ++ '\n' :: (B ++ '\n' :: (tripleLit ++ C))) =
        '\n' :: (B ++ '\n' :: (tripleLit ++ C)) := by
      rcases htag with h0 | h4
      · subst h0
        rw [List.nil_append]
        exact dropJavaTag_no _ _ (by decide)
      · have h4' : tag.map Char.toLower = ['j', 'a', 'v', 'a'] := h4
        rcases tag with _ | ⟨t1, _ | ⟨t2, _ | ⟨t3, _ | ⟨t4, rest⟩⟩⟩⟩
        · exact absurd h4' (by decide)
        · exact absurd h4' (by simp)
        · exact absurd h4' (by simp)
        · exact absurd h4' (by simp)
        · simp only [List.map_cons] at h4'
          injection h4' with e1 h4'
          injection h4' with e2 h4'
          injection h4' with e3 h4'
          injection h4' with e4 h4'
          have hrest : rest = [] := List.map_eq_nil_iff.mp h4'
          subst hrest
          rw [List.cons_append, List.cons_append, List.cons_append, List.cons_append,
            List.nil_append]
          exact dropJavaTag_tag _ _ _ _ _ ⟨e1, e2, e3, e4⟩
    have hws : (dropJavaTag (tag ++ '\n' :: (B ++ '\n' :: (tripleLit ++ C)))).dropWhile pyIsSpace =
        (B ++ '\n' :: (tripleLit ++ C)).dropWhile pyIsSpace := by
      rw [hdt, List.dropWhile_cons, if_pos (by decide : pyIsSpace '\n' = true)]
    cases hd : B.dropWhile pyIsSpace with
    | nil =>
      have hYd : (B ++ '\n' :: (tripleLit ++ C)).dropWhile pyIsSpace = tripleLit ++ C := by
        rw [List.dropWhile_append, hd]
        simp only [List.isEmpty_nil, if_true]
        rw [List.dropWhile_cons, if_pos (by decide : pyIsSpace '\n' = true)]
        have he : tripleLit ++ C = Char.ofNat 96 :: (Char.ofNat 96 :: Char.ofNat 96 :: C) := rfl
        rw [he, List.dropWhile_cons, if_neg (by decide)]
      have hlz : lazyGroup (tripleLit ++ C) = some [] := by
        have he : tripleLit ++ C = Char.ofNat 96 :: (Char.ofNat 96 :: Char.ofNat 96 :: C) := rfl
        rw [he, lazyGroup, if_pos]
        rw [isTriple_cons3]
        exact ⟨rfl, rfl, rfl⟩
      have hsf : searchFence
          (tripleLit ++ (tag ++ '\n' :: (B ++ '\n' :: (tripleLit ++ C)))) = some [] :=
        searchFence_fence _ (by rw [hws, hYd]; exact hlz)
      unfold JavaTestValidator._extract_java_code
      rw [searchFence_append_no_bt A _ hA, hsf]
      show ([] : List Char) = pyStrip B
      rw [pyStrip, hd]
      rfl
    | cons b bs =>
      have hsplit : B.takeWhile pyIsSpace ++ (b :: bs) = B := by
        have := List.takeWhile_append_dropWhile pyIsSpace B
        rw [hd] at this
        exact this
      have h₁ : containsLit tripleLit (b :: bs) = false :=
        containsLit_tail_false (by rw [hsplit]; exact hB)
      have hYd : (B ++ '\n' :: (tripleLit ++ C)).dropWhile pyIsSpace =
          b :: (bs ++ '\n' :: (tripleLit ++ C)) := by
        rw [List.dropWhile_append, hd]
        rw [if_neg (by simp)]
        rw [List.cons_append]
      have hsf : searchFence
          (tripleLit ++ (tag ++ '\n' :: (B ++ '\n' :: (tripleLit ++ C)))) = some (b :: bs) :=
        searchFence_fence _ (by
          rw [hws, hYd, show b :: (bs ++ '\n' :: (tripleLit ++ C)) =
            (b :: bs) ++ '\n' :: (tripleLit ++ C) from rfl]
          exact lazyGroup_closed (b :: bs) C h₁)
      unfold JavaTestValidator._extract_java_code
      rw [searchFence_append_no_bt A _ hA, hsf]
      show pyStrip (b :: bs) = pyStrip B
      rw [pyStrip, pyStrip, hd, List.dropWhile_cons, if_neg]
      rw [dropWhile_head_false hd]
      exact Bool.noConfusion
  · intro s hs hcond
    unfold JavaTestValidator._extract_java_code
    rw [searchFence_none s hs]
    show (if (isLitAt "public class".toList ((pyStrip s).takeWhile (fun c => c != '\n')) ||
              isLitAt "import".toList ((pyStrip s).takeWhile (fun c => c != '\n'))) = true
          then pyStrip s else []) = pyStrip s
    rw [if_pos hcond]
  · intro s hs hcond
    unfold JavaTestValidator._extract_java_code
    rw [searchFence_none s hs]
    show (if (isLitAt "public class".toList ((pyStrip s).takeWhile (fun c => c != '\n')) ||
              isLitAt "import".toList ((pyStrip s).takeWhile (fun c => c != '\n'))) = true
          then pyStrip s else []) = []
    rw [if_neg (by rw [hcond]; exact Bool.noConfusion)]

/-- Witness for C8: one instance of each of the three extractor cases. -/
theorem spec_C8_witness :
    JavaTestValidator._extract_java_code
        ("x\n".toList ++ (tripleLit ++ ("java".toList ++ '\n' ::
          ("class A".toList ++ '\n' :: (tripleLit ++ " tail".toList))))) =
      pyStrip "class A".toList ∧
    JavaTestValidator._extract_java_code "import x;\nfoo".toList =
      pyStrip "import x;\nfoo".toList ∧
    JavaTestValidator._extract_java_code "hello".toList = [] :=
  ⟨spec_C8_extractor_contract.1 "x\n".toList "java".toList "class A".toList " tail".toList
      (by decide) (Or.inr (by decide)) (by decide),
   spec_C8_extractor_contract.2.1 "import x;\nfoo".toList (by decide) (by decide),
   spec_C8_extractor_contract.2.2 "hello".toList (by decide) (by decide)⟩
